/-
  Verification of the medication state synchronization core of the
  ai-health-coach-chatkit repository.

  The definitions below are shallow embeddings of the frontend code:
  - `frontend/src/components/ChatKitPanel.tsx` (onClientTool, onThreadChange)
  - `frontend/src/hooks/useMedications.ts` (fetchMedications, performAction, refresh)
  - `frontend/src/components/Home.tsx` (onBrowserRefresh effect)
  Strings are modelled as Lean `String` (lists of characters); JavaScript's
  `replace(/\s+/g, " ")` and `trim()` are modelled character-by-character.
-/
import Mathlib

namespace HealthCoach

/-- Whitespace test shared by the model of the regex class `\s` and of
JavaScript `trim()` in the frontend code. -/
def isWs (c : Char) : Bool :=
  c.isWhitespace

/-- Model of `s.replace(/\s+/g, " ")` from `ChatKitPanel.tsx`: every maximal
run of whitespace characters is replaced by a single space.  The single space
for a run is emitted when the run ends. -/
def collapseWs : List Char → List Char
  | [] => []
  | [c] => if isWs c then [' '] else [c]
  | c :: d :: rest =>
    if isWs c then
      if isWs d then collapseWs (d :: rest) else ' ' :: collapseWs (d :: rest)
    else
      c :: collapseWs (d :: rest)

/-- Remove the maximal trailing whitespace run of a character list. -/
def dropTrail : List Char → List Char
  | [] => []
  | c :: t =>
    match dropTrail t with
    | [] => if isWs c then [] else [c]
    | x => c :: x

/-- Remove the maximal leading whitespace run of a character list. -/
def dropWs (l : List Char) : List Char :=
  l.dropWhile isWs

/-- Model of JavaScript `trim()`: remove leading and trailing whitespace. -/
def trimChars (l : List Char) : List Char :=
  dropTrail (dropWs l)

/-- Model of JavaScript `String.trim()` on strings. -/
def jsTrim (s : String) : String :=
  String.mk (trimChars s.toList)

/-- The normalization the adapter applies to the name it dispatches to the
write path: `name.replace(/\s+/g, " ").trim()` (collapse first, then trim),
from `ChatKitPanel.tsx` line 76. -/
def normalizeName (s : String) : String :=
  String.mk (trimChars (collapseWs s.toList))

/-- The spec's wording of the normalized display form: the raw string
"trimmed, internal whitespace collapsed to single spaces" (trim first, then
collapse the interior). -/
def specNormalizedForm (s : String) : String :=
  String.mk (collapseWs (trimChars s.toList))

theorem isWs_space : isWs ' ' = true := by
  decide

theorem collapseWs_cons_not (c : Char) (t : List Char) (h : isWs c = false) :
    collapseWs (c :: t) = c :: collapseWs t := by
  cases t with
  | nil => simp [collapseWs, h]
  | cons d r => simp [collapseWs, h]

theorem collapseWs_cons_ws_ws (c d : Char) (r : List Char)
    (hc : isWs c = true) (hd : isWs d = true) :
    collapseWs (c :: d :: r) = collapseWs (d :: r) := by
  simp [collapseWs, hc, hd]

theorem collapseWs_cons_ws_not (c d : Char) (r : List Char)
    (hc : isWs c = true) (hd : isWs d = false) :
    collapseWs (c :: d :: r) = ' ' :: collapseWs (d :: r) := by
  simp [collapseWs, hc, hd]

theorem collapseWs_eq_nil (l : List Char) : collapseWs l = [] ↔ l = [] := by
  induction l with
  | nil => simp [collapseWs]
  | cons c t ih =>
    cases t with
    | nil => cases hc : isWs c <;> simp [collapseWs, hc]
    | cons d r =>
      cases hc : isWs c
      · rw [collapseWs_cons_not c (d :: r) hc]
        simp
      · cases hd : isWs d
        · rw [collapseWs_cons_ws_not c d r hc hd]
          simp
        · rw [collapseWs_cons_ws_ws c d r hc hd]
          simp [ih]

theorem dropTrail_cons (c : Char) (t : List Char) :
    dropTrail (c :: t) =
      if dropTrail t = [] then (if isWs c then [] else [c]) else c :: dropTrail t := by
  cases h : dropTrail t with
  | nil => simp [dropTrail, h]
  | cons a x => simp [dropTrail, h]

theorem dropTrail_eq_nil (l : List Char) :
    dropTrail l = [] ↔ ∀ c ∈ l, isWs c = true := by
  induction l with
  | nil => simp [dropTrail]
  | cons c t ih =>
    rw [dropTrail_cons]
    by_cases h : dropTrail t = []
    · rw [if_pos h]
      cases hc : isWs c
      · simp [hc]
      · simp only [hc, if_pos]
        simp only [List.mem_cons, forall_eq_or_imp, hc, true_and, true_iff]
        exact ih.mp h
    · rw [if_neg h]
      simp only [List.cons_ne_nil, false_iff]
      intro hall
      exact h (ih.mpr fun x hx => hall x (List.mem_cons_of_mem c hx))

theorem collapseWs_of_allWs :
    ∀ l : List Char, (∀ c ∈ l, isWs c = true) → l ≠ [] → collapseWs l = [' ']
  | [], _, hne => absurd rfl hne
  | [c], h, _ => by simp [collapseWs, h c (List.mem_singleton.mpr rfl)]
  | c :: d :: r, h, _ => by
    rw [collapseWs_cons_ws_ws c d r (h c (List.mem_cons_self c (d :: r)))
      (h d (List.mem_cons_of_mem c (List.mem_cons_self d r)))]
    exact collapseWs_of_allWs (d :: r)
      (fun x hx => h x (List.mem_cons_of_mem c hx)) (List.cons_ne_nil d r)

theorem dropTrail_collapseWs (l : List Char) :
    dropTrail (collapseWs l) = collapseWs (dropTrail l) := by
  induction l with
  | nil => simp [collapseWs, dropTrail]
  | cons c t ih =>
    cases t with
    | nil =>
      cases hc : isWs c <;> simp [collapseWs, dropTrail, hc, isWs_space]
    | cons d r =>
      cases hc : isWs c
      · rw [collapseWs_cons_not c (d :: r) hc, dropTrail_cons, ih,
          dropTrail_cons c (d :: r)]
        by_cases h : dropTrail (d :: r) = []
        · simp [h, collapseWs, hc]
        · have h2 : collapseWs (dropTrail (d :: r)) ≠ [] := by
            simpa [collapseWs_eq_nil] using h
          rw [if_neg h2, if_neg h, collapseWs_cons_not c (dropTrail (d :: r)) hc]
      · cases hd : isWs d
        · -- whitespace then non-whitespace: the run ends, a space is emitted
          rw [collapseWs_cons_ws_not c d r hc hd, dropTrail_cons, ih]
          have hdr : dropTrail (d :: r) = d :: (if dropTrail r = [] then [] else dropTrail r) := by
            rw [dropTrail_cons]
            by_cases h : dropTrail r = [] <;> simp [h, hd]
          have hne : collapseWs (dropTrail (d :: r)) ≠ [] := by
            simp [collapseWs_eq_nil, hdr]
          rw [if_neg hne, dropTrail_cons c (d :: r)]
          have hne2 : dropTrail (d :: r) ≠ [] := by simp [hdr]
          rw [if_neg hne2, hdr]
          by_cases h : dropTrail r = []
          · simp only [h, if_pos]
            rw [collapseWs_cons_ws_not c d [] hc hd]
          · simp only [if_neg h]
            rw [collapseWs_cons_ws_not c d (dropTrail r) hc hd]
        · -- two whitespace characters in a row: the first is dropped
          rw [collapseWs_cons_ws_ws c d r hc hd, ih, dropTrail_cons c (d :: r)]
          by_cases h : dropTrail (d :: r) = []
          · simp [h, hc, collapseWs]
          · have hr : dropTrail r ≠ [] := by
              intro hr0
              exact h (by rw [dropTrail_cons]; simp [hr0, hd])
            have hdr : dropTrail (d :: r) = d :: dropTrail r := by
              rw [dropTrail_cons]
              simp [hr]
            rw [if_neg h, hdr, collapseWs_cons_ws_ws c d (dropTrail r) hc hd]

theorem dropWs_cons (c : Char) (t : List Char) :
    dropWs (c :: t) = if isWs c then dropWs t else c :: t := by
  simp [dropWs, List.dropWhile_cons]

/-- Collapsing whitespace runs commutes with trimming: the code's
collapse-then-trim order and the spec's trim-then-collapse order agree. -/
theorem trimChars_collapseWs (l : List Char) :
    trimChars (collapseWs l) = collapseWs (trimChars l) := by
  induction l with
  | nil => simp [trimChars, collapseWs, dropWs, dropTrail]
  | cons c t ih =>
    cases hc : isWs c
    · -- non-whitespace head: both sides keep `c` up front
      rw [collapseWs_cons_not c t hc]
      unfold trimChars
      rw [dropWs_cons, dropWs_cons, if_neg (by simp [hc]), if_neg (by simp [hc]),
        dropTrail_cons, dropTrail_cons, dropTrail_collapseWs t]
      by_cases h : dropTrail t = []
      · simp [h, collapseWs, hc]
      · have h2 : collapseWs (dropTrail t) ≠ [] := by
          simpa [collapseWs_eq_nil] using h
        rw [if_neg h2, if_neg h, collapseWs_cons_not c (dropTrail t) hc]
    · -- whitespace head: both sides drop it
      have hrhs : trimChars (c :: t) = trimChars t := by
        unfold trimChars
        rw [dropWs_cons, if_pos (by simp [hc])]
      rw [hrhs, ← ih]
      cases t with
      | nil => simp [collapseWs, hc, trimChars, dropWs, dropTrail, isWs_space]
      | cons d r =>
        cases hd : isWs d
        · rw [collapseWs_cons_ws_not c d r hc hd]
          unfold trimChars
          rw [dropWs_cons, if_pos (by simp [isWs_space])]
        · rw [collapseWs_cons_ws_ws c d r hc hd]

/-- The name the adapter dispatches (`replace(/\s+/g, " ").trim()`) equals the
spec's normalized display form (trim, then collapse interior whitespace). -/
theorem normalizeName_eq_specNormalizedForm (s : String) :
    normalizeName s = specNormalizedForm s := by
  unfold normalizeName specNormalizedForm
  rw [trimChars_collapseWs]

/-- A name that trims to the empty string also normalizes to the empty string. -/
theorem normalizeName_of_trim_empty (s : String) (h : jsTrim s = "") :
    normalizeName s = "" := by
  have h2 : trimChars s.toList = [] := by
    have := congrArg String.data h
    simpa [jsTrim] using this
  unfold normalizeName
  rw [trimChars_collapseWs, h2]
  rfl

/-! ## Data model -/

/-- A medication record as synthesized by `performAction` in
`useMedications.ts`: `{ name, createdAt: new Date().toISOString() }`.
The record has no further fields. -/
structure MedicationRecord where
  name : String
  createdAt : String
deriving DecidableEq, Repr

/-- The `MedicationAction` union type of `useMedications.ts`:
`{ type: "save" | "delete"; medicationName: string }`. -/
inductive MedicationAction where
  | save (medicationName : String)
  | delete (medicationName : String)
deriving DecidableEq, Repr

/-! ## ToolInvocationAdapter (`ChatKitPanel.tsx`) -/

/-- The boolean outcome the adapter reports back to the conversational
layer (`{ success: boolean }`). -/
structure ToolResult where
  success : Bool
deriving DecidableEq, Repr

/-- Per-component adapter state: the `processedMedications` ref, a set of the
raw `medication_name` strings already handled in the current session. -/
structure AdapterState where
  processed : List String
deriving DecidableEq, Repr

/-- A client tool invocation `{ name, params }` as dispatched by
`onClientTool`.  `recordMedication` carries the optional `medication_name`
parameter (`invocation.params.medication_name ?? ""`). -/
inductive ClientToolInvocation where
  | switchTheme (theme : Option String)
  | recordMedication (medicationName : Option String)
  | otherTool (name : String)

/-- Result of one `onClientTool` call: the adapter state afterwards, the
`{ success }` value returned, and the widget action dispatched to
`onWidgetAction` (if any). -/
structure ToolStepResult where
  state : AdapterState
  result : ToolResult
  dispatched : Option MedicationAction
deriving DecidableEq, Repr

/-- The `record_medication` branch of `onClientTool` (`ChatKitPanel.tsx`
lines 68-79): coalesce the missing parameter to `""`; short-circuit with
`{ success: true }` when the raw name is empty or already in the processed
set; otherwise add the raw name to the set and dispatch a `save` action
carrying `name.replace(/\s+/g, " ").trim()`. -/
def handleRecordMedication (s : AdapterState) (param : Option String) : ToolStepResult :=
  if param.getD "" = "" ∨ param.getD "" ∈ s.processed then
    ⟨s, ⟨true⟩, none⟩
  else
    ⟨⟨param.getD "" :: s.processed⟩, ⟨true⟩,
      some (MedicationAction.save (normalizeName (param.getD "")))⟩

/-- The full `onClientTool` handler of `ChatKitPanel.tsx`: a `switch_theme`
tool succeeds exactly for `"light"`/`"dark"`, `record_medication` is handled
by `handleRecordMedication`, any other tool name reports failure. -/
def onClientTool (s : AdapterState) (inv : ClientToolInvocation) : ToolStepResult :=
  match inv with
  | ClientToolInvocation.switchTheme t =>
    match t with
    | some "light" => ⟨s, ⟨true⟩, none⟩
    | some "dark" => ⟨s, ⟨true⟩, none⟩
    | _ => ⟨s, ⟨false⟩, none⟩
  | ClientToolInvocation.recordMedication p => handleRecordMedication s p
  | ClientToolInvocation.otherTool _ => ⟨s, ⟨false⟩, none⟩

/-- The `onThreadChange` callback of `ChatKitPanel.tsx`:
`processedMedications.current.clear()`. -/
def onThreadChange (_s : AdapterState) : AdapterState :=
  ⟨[]⟩

/-- Run a session of `record_medication` invocations through the adapter,
collecting for every dispatched write the pair
(raw `medication_name`, normalized name submitted to the write path). -/
def runRecordSession : AdapterState → List (Option String) → List (String × String)
  | _, [] => []
  | s, p :: rest =>
    match handleRecordMedication s p with
    | ⟨s', _, some (MedicationAction.save n)⟩ => (p.getD "", n) :: runRecordSession s' rest
    | ⟨s', _, _⟩ => runRecordSession s' rest

/-! ## ClientMedicationCache (`useMedications.ts`) -/

/-- The state held by the `useMedications` hook: the `medications`,
`error` and `loading` React state cells. -/
structure HookState where
  medications : List MedicationRecord
  error : Option String
  loading : Bool
deriving DecidableEq, Repr

/-- Start of `fetchMedications`: `setLoading(true); setError(null)`. -/
def startFetch (st : HookState) : HookState :=
  { st with loading := true, error := none }

/-- Successful completion of a `fetchMedications` call:
`setMedications(data.medications || [])` followed by the `finally`
block's `setLoading(false)`.  `resp` is the `medications` field of the
parsed response (`none` when absent). -/
def completeFetchSuccess (resp : Option (List MedicationRecord)) (st : HookState) : HookState :=
  { st with medications := resp.getD [], loading := false }

/-- Failed completion of a `fetchMedications` call: the `catch` block's
`setError(message)` followed by `setLoading(false)`.  The medications
state is not touched. -/
def completeFetchFailure (msg : String) (st : HookState) : HookState :=
  { st with error := some msg, loading := false }

/-- A request to the medications REST surface.  `performAction` in
`useMedications.ts` issues none: both branches only update local state. -/
inductive ServerRequest where
  | fetchList
  | deleteOne (name : String)
  | clearAll
deriving DecidableEq, Repr

/-- The `performAction` callback of `useMedications.ts` (lines 34-55),
returning the new `medications` state together with the list of server
requests issued (which is empty in both branches).  The `save` branch trims
the name, rejects an empty result, skips the append when a record with the
trimmed name already exists, and otherwise appends
`{ name, createdAt: now }`.  The `delete` branch filters by exact
string equality on the raw `medicationName`. -/
def performAction (a : MedicationAction) (now : String) (current : List MedicationRecord) :
    List MedicationRecord × List ServerRequest :=
  match a with
  | MedicationAction.save medicationName =>
    if jsTrim medicationName = "" then (current, [])
    else if current.any (fun m => m.name == jsTrim medicationName) then (current, [])
    else (current ++ [⟨jsTrim medicationName, now⟩], [])
  | MedicationAction.delete medicationName =>
    (current.filter (fun m => m.name != medicationName), [])

/-! ## SessionResetCoordinator (`Home.tsx`) -/

/-- Combined session state: the backend store's record list, the client
cache's record list, the `chatKey` passed to the ChatKit panel, and the
theme string. -/
structure SessionState where
  store : List MedicationRecord
  cache : List MedicationRecord
  chatKey : Nat
  theme : String
deriving DecidableEq, Repr

/-- Modelled from the spec: the bulk-clear variant of the medications hook
(`clearAllMedications`) called by `Home.tsx` and the backend
`MedicationStore` clear path are not under `src/` (only the caller and the
backend README are).  Per spec section 4.5 it "issues a bulk-clear call
against MedicationAPI" (`DELETE /medications`, which removes all store
records) and "clears ClientMedicationCache locally". -/
def clearAllMedications (s : SessionState) : SessionState :=
  { s with store := [], cache := [] }

/-- Modelled from the spec: the store's `list()` operation (`GET
/medications`), which returns all current records; the backend store
implementation is not under `src/`. -/
def storeList (s : SessionState) : List MedicationRecord :=
  s.store

/-- The `onBrowserRefresh` effect of `Home.tsx` (lines 20-28): awaits
`clearAllMedications()`, then forces ChatKit to reset by changing its key
(`setChatKey(Date.now())`), then `handleThemeChange("light")`. -/
def onBrowserRefresh (s : SessionState) (newKey : Nat) : SessionState :=
  let s1 := clearAllMedications s
  { s1 with chatKey := newKey, theme := "light" }

/-! ## Helper lemmas about the adapter's dedup behaviour -/

theorem onClientTool_record (s : AdapterState) (p : Option String) :
    onClientTool s (ClientToolInvocation.recordMedication p) =
      handleRecordMedication s p :=
  rfl

theorem handleRecordMedication_skip (s : AdapterState) (p : Option String)
    (h : p.getD "" = "" ∨ p.getD "" ∈ s.processed) :
    handleRecordMedication s p = ⟨s, ⟨true⟩, none⟩ := by
  unfold handleRecordMedication
  rw [if_pos h]

theorem handleRecordMedication_write (s : AdapterState) (p : Option String)
    (h : ¬(p.getD "" = "" ∨ p.getD "" ∈ s.processed)) :
    handleRecordMedication s p =
      ⟨⟨p.getD "" :: s.processed⟩, ⟨true⟩,
        some (MedicationAction.save (normalizeName (p.getD "")))⟩ := by
  unfold handleRecordMedication
  rw [if_neg h]

theorem performAction_save (n now : String) (cur : List MedicationRecord) :
    performAction (MedicationAction.save n) now cur =
      if jsTrim n = "" then (cur, [])
      else if cur.any (fun m => m.name == jsTrim n) then (cur, [])
      else (cur ++ [⟨jsTrim n, now⟩], []) :=
  rfl

theorem performAction_del (n now : String) (cur : List MedicationRecord) :
    performAction (MedicationAction.delete n) now cur =
      (cur.filter (fun m => m.name != n), []) :=
  rfl

theorem runRecordSession_cons_skip (s : AdapterState) (p : Option String)
    (rest : List (Option String)) (h : p.getD "" = "" ∨ p.getD "" ∈ s.processed) :
    runRecordSession s (p :: rest) = runRecordSession s rest := by
  simp only [runRecordSession, handleRecordMedication_skip s p h]

theorem runRecordSession_cons_write (s : AdapterState) (p : Option String)
    (rest : List (Option String)) (h : ¬(p.getD "" = "" ∨ p.getD "" ∈ s.processed)) :
    runRecordSession s (p :: rest) =
      (p.getD "", normalizeName (p.getD "")) ::
        runRecordSession ⟨p.getD "" :: s.processed⟩ rest := by
  simp only [runRecordSession, handleRecordMedication_write s p h]

/-- Raw names that trigger writes in a session are fresh with respect to the
starting processed set, and no raw name triggers two writes. -/
theorem runRecordSession_raw_names (ps : List (Option String)) :
    ∀ s : AdapterState,
      (∀ w ∈ runRecordSession s ps, w.1 ∉ s.processed) ∧
      (List.map Prod.fst (runRecordSession s ps)).Nodup := by
  induction ps with
  | nil =>
    intro s
    refine ⟨fun w hw => ?_, by simp [runRecordSession]⟩
    simp [runRecordSession] at hw
  | cons p rest ih =>
    intro s
    by_cases h : p.getD "" = "" ∨ p.getD "" ∈ s.processed
    · rw [runRecordSession_cons_skip s p rest h]
      exact ih s
    · rw [runRecordSession_cons_write s p rest h]
      push_neg at h
      obtain ⟨hne, hmem⟩ := h
      have iht := ih ⟨p.getD "" :: s.processed⟩
      constructor
      · intro w hw
        rcases List.mem_cons.mp hw with hw1 | hw2
        · rw [hw1]
          exact hmem
        · have hfresh := iht.1 w hw2
          exact fun hmem2 => hfresh (List.mem_cons_of_mem _ hmem2)
      · rw [List.map_cons]
        refine List.nodup_cons.mpr ⟨?_, iht.2⟩
        intro hmemmap
        obtain ⟨w, hw, hweq⟩ := List.mem_map.mp hmemmap
        exact (iht.1 w hw) (hweq ▸ List.mem_cons_self _ _)

/-! ## Claim theorems -/

/-- Claim C1 counterexample: two `record_medication` invocations in one
session whose raw names differ ("Aspirin" vs " Aspirin") but normalize to the
same string both dispatch a write, so the adapter does not short-circuit per
normalized name. -/
theorem record_medication_two_writes_same_normalized_name :
    runRecordSession ⟨[]⟩ [some "Aspirin", some " Aspirin"] =
      [("Aspirin", "Aspirin"), (" Aspirin", "Aspirin")] := by
  decide

/-- Claim C1 (amended): the per-session dedup is keyed on the raw
`medication_name` string, not on its normalized form.  Within one session at
most one write is dispatched per raw name (the raw names of the dispatched
writes are distinct and fresh with respect to the starting processed set),
and an invocation repeating an already-processed raw name short-circuits
with synthetic success and dispatches no write. -/
theorem record_medication_dedup_by_raw_name (s : AdapterState)
    (ps : List (Option String)) (raw : String) :
    (List.map Prod.fst (runRecordSession s ps)).Nodup ∧
    (∀ w ∈ runRecordSession s ps, w.1 ∉ s.processed) ∧
    (raw ∈ s.processed →
      onClientTool s (ClientToolInvocation.recordMedication (some raw)) =
        ⟨s, ⟨true⟩, none⟩) := by
  refine ⟨(runRecordSession_raw_names ps s).2, (runRecordSession_raw_names ps s).1, ?_⟩
  intro hmem
  have hmem2 : (some raw).getD "" ∈ s.processed := hmem
  rw [onClientTool_record]
  exact handleRecordMedication_skip s (some raw) (Or.inr hmem2)

theorem record_medication_dedup_by_raw_name_witness :
    ("Aspirin" ∈ (⟨["Aspirin"]⟩ : AdapterState).processed) ∧
    onClientTool ⟨["Aspirin"]⟩ (ClientToolInvocation.recordMedication (some "Aspirin")) =
      ⟨⟨["Aspirin"]⟩, ⟨true⟩, none⟩ :=
  ⟨by decide,
    (record_medication_dedup_by_raw_name ⟨["Aspirin"]⟩ [] "Aspirin").2.2 (by decide)⟩

/-- Claim C2 counterexample: refresh A starts, refresh B starts before A
resolves, B completes first (with the empty list), then A's stale completion
arrives and overwrites the state B set — `fetchMedications` has no request
token guarding stale completions. -/
theorem stale_refresh_overwrites_newer_state :
    (completeFetchSuccess (some [])
        (startFetch (startFetch ⟨[], none, false⟩))).medications = [] ∧
    (completeFetchSuccess (some [⟨"Metformin", "t1"⟩])
        (completeFetchSuccess (some [])
          (startFetch (startFetch ⟨[], none, false⟩)))).medications =
      [⟨"Metformin", "t1"⟩] ∧
    ([⟨"Metformin", "t1"⟩] : List MedicationRecord) ≠ [] :=
  ⟨rfl, rfl, by decide⟩

/-- Claim C2 (amended): `fetchMedications` carries no stale-completion
guard — each successful completion unconditionally installs its own
response, so with two overlapping refreshes the final medication list is
that of the completion arriving last, even when that completion belongs to
the superseded (earlier-started) call. -/
theorem overlapping_refresh_last_completion_wins (st : HookState)
    (ra rb : Option (List MedicationRecord)) :
    (completeFetchSuccess rb (startFetch (startFetch st))).medications = rb.getD [] ∧
    (completeFetchSuccess ra
        (completeFetchSuccess rb (startFetch (startFetch st)))).medications = ra.getD [] :=
  ⟨rfl, rfl⟩

/-- Claim C3 counterexample: for an empty (or absent) `medication_name` the
adapter reports `{ success: true }`, not the failure the claim requires. -/
theorem empty_medication_name_reports_success :
    (onClientTool ⟨[]⟩ (ClientToolInvocation.recordMedication (some ""))).result = ⟨true⟩ ∧
    (onClientTool ⟨[]⟩ (ClientToolInvocation.recordMedication none)).result = ⟨true⟩ := by
  decide

/-- Claim C3 (amended): for an absent or empty `medication_name` the adapter
short-circuits with synthetic success (`{ success: true }`), leaves its
state unchanged and dispatches no write.  A whitespace-only name escapes the
emptiness test: it is also answered with `{ success: true }`, and a save
action whose normalized name is empty is dispatched, which the cache layer's
`performAction` drops without mutating the medication list and without
issuing any server request.  In neither case is failure reported. -/
theorem malformed_medication_name_handling (s : AdapterState) (p : Option String)
    (cur : List MedicationRecord) (now : String) :
    (p.getD "" = "" →
      onClientTool s (ClientToolInvocation.recordMedication p) = ⟨s, ⟨true⟩, none⟩) ∧
    (∀ raw : String, raw ≠ "" → jsTrim raw = "" → raw ∉ s.processed →
      (onClientTool s (ClientToolInvocation.recordMedication (some raw))).dispatched =
          some (MedicationAction.save "") ∧
        (onClientTool s (ClientToolInvocation.recordMedication (some raw))).result =
          ⟨true⟩ ∧
        performAction (MedicationAction.save "") now cur = (cur, [])) := by
  constructor
  · intro h
    rw [onClientTool_record]
    exact handleRecordMedication_skip s p (Or.inl h)
  · intro raw h1 h2 h3
    have hn : normalizeName raw = "" := normalizeName_of_trim_empty raw h2
    have hstep : onClientTool s (ClientToolInvocation.recordMedication (some raw)) =
        ⟨⟨raw :: s.processed⟩, ⟨true⟩,
          some (MedicationAction.save (normalizeName raw))⟩ := by
      rw [onClientTool_record]
      exact handleRecordMedication_write s (some raw) (by simp [h1, h3])
    rw [hstep, hn]
    refine ⟨rfl, rfl, ?_⟩
    rw [performAction_save, if_pos (show jsTrim "" = "" by decide)]

theorem malformed_medication_name_handling_witness :
    (onClientTool ⟨[]⟩ (ClientToolInvocation.recordMedication (some "")) =
      ⟨⟨[]⟩, ⟨true⟩, none⟩) ∧
    ((onClientTool ⟨[]⟩ (ClientToolInvocation.recordMedication (some " "))).dispatched =
        some (MedicationAction.save "") ∧
      (onClientTool ⟨[]⟩ (ClientToolInvocation.recordMedication (some " "))).result =
        ⟨true⟩ ∧
      performAction (MedicationAction.save "") "t0" [] = ([], [])) :=
  ⟨(malformed_medication_name_handling ⟨[]⟩ (some "") [] "t0").1 (by decide),
    (malformed_medication_name_handling ⟨[]⟩ (some "") [] "t0").2 " "
      (by decide) (by decide) (by decide)⟩

/-- Claim C4: the session-reset step clears both sides — after it the
store's `list()` returns the empty sequence, the client cache is empty
before any further refresh, the ChatKit thread key is fresh, and the theme
is reset to light. -/
theorem session_reset_clears_both_sides (s : SessionState) (k : Nat)
    (h : k ≠ s.chatKey) :
    storeList (onBrowserRefresh s k) = [] ∧
    (onBrowserRefresh s k).cache = [] ∧
    (onBrowserRefresh s k).chatKey ≠ s.chatKey ∧
    (onBrowserRefresh s k).theme = "light" :=
  ⟨rfl, rfl, h, rfl⟩

theorem session_reset_clears_both_sides_witness :
    storeList (onBrowserRefresh ⟨[⟨"Aspirin", "t0"⟩], [⟨"Aspirin", "t0"⟩], 0, "dark"⟩ 1) = [] ∧
    (onBrowserRefresh ⟨[⟨"Aspirin", "t0"⟩], [⟨"Aspirin", "t0"⟩], 0, "dark"⟩ 1).cache = [] ∧
    (onBrowserRefresh ⟨[⟨"Aspirin", "t0"⟩], [⟨"Aspirin", "t0"⟩], 0, "dark"⟩ 1).chatKey ≠
      (SessionState.mk [⟨"Aspirin", "t0"⟩] [⟨"Aspirin", "t0"⟩] 0 "dark").chatKey ∧
    (onBrowserRefresh ⟨[⟨"Aspirin", "t0"⟩], [⟨"Aspirin", "t0"⟩], 0, "dark"⟩ 1).theme = "light" :=
  session_reset_clears_both_sides ⟨[⟨"Aspirin", "t0"⟩], [⟨"Aspirin", "t0"⟩], 0, "dark"⟩ 1
    (by decide)

/-- Claim C5: a successful refresh replaces the entire local view with
exactly the list returned by the server, independently of whatever the
previous local state (including pending optimistic entries) contained. -/
theorem refresh_replaces_entire_view (st : HookState) (l : List MedicationRecord) :
    (completeFetchSuccess (some l) (startFetch st)).medications = l :=
  rfl

/-- Claim C6: a failed refresh surfaces a user-visible error string and
leaves the previously held medication list untouched. -/
theorem failed_refresh_preserves_view (st : HookState) (msg : String) :
    (completeFetchFailure msg (startFetch st)).medications = st.medications ∧
    (completeFetchFailure msg (startFetch st)).error = some msg :=
  ⟨rfl, rfl⟩

/-- Claim C7 counterexample: with an empty cache and the empty name no
record with that name exists locally, yet the optimistic save appends
nothing (the trimmed-empty guard returns early), contradicting the claim's
universal quantification over every name. -/
theorem optimistic_save_empty_name_noop :
    (performAction (MedicationAction.save "") "t0" []).1 = [] ∧
    (performAction (MedicationAction.save "") "t0" []).1.length ≠ 1 := by
  decide

/-- Claim C7 (amended): for every name whose trim is nonempty, the
optimistic save appends exactly one synthesized record — carrying the
trimmed name and `createdAt = now`, with no status field — when no record
with the trimmed name exists locally, and applying the save again with the
same name leaves the list unchanged; names that trim to the empty string
are dropped without any append. -/
theorem optimistic_save_idempotent (cur : List MedicationRecord)
    (raw now now2 : String) (h : jsTrim raw ≠ "") :
    (cur.any (fun m => m.name == jsTrim raw) = false →
      (performAction (MedicationAction.save raw) now cur).1 =
        cur ++ [⟨jsTrim raw, now⟩]) ∧
    (performAction (MedicationAction.save raw) now2
        (performAction (MedicationAction.save raw) now cur).1).1 =
      (performAction (MedicationAction.save raw) now cur).1 := by
  constructor
  · intro habs
    rw [performAction_save, if_neg h, if_neg (by simp [habs])]
  · by_cases habs : cur.any (fun m => m.name == jsTrim raw) = true
    · have hinner : (performAction (MedicationAction.save raw) now cur).1 = cur := by
        rw [performAction_save, if_neg h, if_pos habs]
      rw [hinner, performAction_save, if_neg h, if_pos habs]
    · have hinner : (performAction (MedicationAction.save raw) now cur).1 =
          cur ++ [⟨jsTrim raw, now⟩] := by
        rw [performAction_save, if_neg h, if_neg habs]
      have hfound : (List.any (cur ++ [MedicationRecord.mk (jsTrim raw) now])
          (fun m => m.name == jsTrim raw)) = true := by
        simp
      rw [hinner, performAction_save, if_neg h, if_pos hfound]

theorem optimistic_save_idempotent_witness :
    (jsTrim "Aspirin" ≠ "") ∧
    ((([] : List MedicationRecord).any (fun m => m.name == jsTrim "Aspirin") = false →
      (performAction (MedicationAction.save "Aspirin") "t0" []).1 =
        [] ++ [⟨jsTrim "Aspirin", "t0"⟩]) ∧
    (performAction (MedicationAction.save "Aspirin") "t1"
        (performAction (MedicationAction.save "Aspirin") "t0" []).1).1 =
      (performAction (MedicationAction.save "Aspirin") "t0" []).1) :=
  ⟨by decide, optimistic_save_idempotent [] "Aspirin" "t0" "t1" (by decide)⟩

/-- Claim C8: the name carried by every dispatched write equals the raw
`medication_name` in the spec's normalized display form — trimmed, with
internal whitespace runs collapsed to single spaces. -/
theorem dispatched_write_name_normalized (s : AdapterState) (raw : String)
    (h1 : raw ≠ "") (h2 : raw ∉ s.processed) :
    (onClientTool s (ClientToolInvocation.recordMedication (some raw))).dispatched =
      some (MedicationAction.save (specNormalizedForm raw)) := by
  rw [onClientTool_record, handleRecordMedication_write s (some raw) (by simp [h1, h2])]
  rw [← normalizeName_eq_specNormalizedForm]
  rfl

theorem dispatched_write_name_normalized_witness :
    (" Ibu  profen " ≠ "") ∧
    (" Ibu  profen " ∉ (⟨[]⟩ : AdapterState).processed) ∧
    (onClientTool ⟨[]⟩
        (ClientToolInvocation.recordMedication (some " Ibu  profen "))).dispatched =
      some (MedicationAction.save (specNormalizedForm " Ibu  profen ")) :=
  ⟨by decide, by decide,
    dispatched_write_name_normalized ⟨[]⟩ " Ibu  profen " (by decide) (by decide)⟩

/-- Claim C9: the thread-change callback resets the per-session processed
set to empty, so after a thread change any nonempty name — in particular one
recorded in the previous session — is dispatched to the write path again. -/
theorem thread_change_resets_dedup_set (s : AdapterState) (raw : String)
    (_h1 : raw ∈ s.processed) (h2 : raw ≠ "") :
    (onThreadChange s).processed = [] ∧
    (onClientTool (onThreadChange s)
        (ClientToolInvocation.recordMedication (some raw))).dispatched =
      some (MedicationAction.save (normalizeName raw)) := by
  refine ⟨rfl, ?_⟩
  rw [onClientTool_record,
    handleRecordMedication_write (onThreadChange s) (some raw) (by simp [h2, onThreadChange])]
  rfl

theorem thread_change_resets_dedup_set_witness :
    ("Aspirin" ∈ (⟨["Aspirin"]⟩ : AdapterState).processed) ∧ ("Aspirin" ≠ "") ∧
    ((onThreadChange ⟨["Aspirin"]⟩).processed = [] ∧
      (onClientTool (onThreadChange ⟨["Aspirin"]⟩)
          (ClientToolInvocation.recordMedication (some "Aspirin"))).dispatched =
        some (MedicationAction.save (normalizeName "Aspirin"))) :=
  ⟨by decide, by decide,
    thread_change_resets_dedup_set ⟨["Aspirin"]⟩ "Aspirin" (by decide) (by decide)⟩

/-- Claim C10: the optimistic delete removes exactly the cache entries whose
name is string-equal to the raw target (no trimming or normalization is
applied), keeps every other entry in its original relative order, and issues
no server request. -/
theorem optimistic_delete_exact_name (cur : List MedicationRecord)
    (target now : String) :
    (performAction (MedicationAction.delete target) now cur).1.Sublist cur ∧
    (∀ m : MedicationRecord,
      m ∈ (performAction (MedicationAction.delete target) now cur).1 ↔
        m ∈ cur ∧ m.name ≠ target) ∧
    (performAction (MedicationAction.delete target) now cur).2 = [] := by
  refine ⟨?_, ?_, rfl⟩
  · rw [performAction_del]
    exact List.filter_sublist cur
  · intro m
    rw [performAction_del]
    simp [List.mem_filter]

theorem optimistic_delete_exact_name_witness :
    ((⟨" Aspirin", "t1"⟩ : MedicationRecord) ∈
      (performAction (MedicationAction.delete "Aspirin") "t2"
        [⟨"Aspirin", "t0"⟩, ⟨" Aspirin", "t1"⟩]).1) ∧
    (performAction (MedicationAction.delete "Aspirin") "t2"
      [⟨"Aspirin", "t0"⟩, ⟨" Aspirin", "t1"⟩]).2 = [] :=
  ⟨((optimistic_delete_exact_name [⟨"Aspirin", "t0"⟩, ⟨" Aspirin", "t1"⟩]
        "Aspirin" "t2").2.1 ⟨" Aspirin", "t1"⟩).mpr ⟨by decide, by decide⟩,
    (optimistic_delete_exact_name [⟨"Aspirin", "t0"⟩, ⟨" Aspirin", "t1"⟩]
        "Aspirin" "t2").2.2⟩

end HealthCoach
